import Mathlib

/-!
Verification of the stroke synchronization engine of `src/server.js`
(collaborative canvas server).

The JavaScript server keeps one global array `canvasData` of stroke
records, handles socket events (`draw`, `erase`, `clear`, `undo`,
`request-sync`) and REST endpoints (`/api/canvas/restore`,
`/api/sync-canvas`), broadcasts updates, and persists the array to a
JSON file.

Modelling conventions of this shallow embedding:
* a JavaScript value appearing in a stroke record is `JVal`; finite JS
  numbers are modelled as integers (no claim computes with fractional
  values, only `typeof`/finiteness/zero tests and comparisons matter);
  `NaN`, `Infinity` and `-Infinity` get their own constructors because
  `typeof x === 'number'` accepts them while truthiness and order
  comparisons treat them specially;
* a stroke record / event payload is `JRecord`: the fields the server
  ever reads or writes are explicit `Option JVal` fields (`none` =
  property absent or `undefined`), and all remaining client-supplied
  properties are carried opaquely in `extra`, so the JS object spread
  `{...data, timestamp: .., id: .., userId: .., type: ..}` is modelled
  exactly by a structure update;
* the mutable server state is `ServerState`: the `canvasData` array and
  the durable file, the latter modelled at the parsed level as
  `Option (List JRecord)` (`none` = file absent or unreadable/unparsable).
  `JSON.parse ∘ JSON.stringify` round-trips records except for the
  non-finite numbers `NaN`/`±Infinity`, which `JSON.stringify`
  serializes as `null`; `jsonRecord` models that replacement, and the
  interval/shutdown save writes the `jsonRecord` image of the array;
* each event handler is a pure function from state and inputs to the new
  state plus the list of socket.io emissions (`Emit`); FCM pushes and
  console logging have no session-visible effect and are not modelled;
* `new Date(t).toDateString()` equality for two timestamps is modelled
  as equality of the calendar-day index `t.fdiv 86400000`.
-/

/-- A JavaScript value as stored in a stroke record. Finite numbers are
integers; `nan`, `inf`, `ninf` are the non-finite numbers; `other`
stands for any remaining truthy value (object, array, ...). -/
inductive JVal where
  | num (v : Int)
  | nan
  | inf
  | ninf
  | str (s : String)
  | boolv (b : Bool)
  | nullv
  | other
deriving DecidableEq, Repr

/-- JavaScript truthiness of a possibly-absent value (`none` = absent /
`undefined`, which is falsy). -/
def truthyO : Option JVal → Bool
  | none => false
  | some (.num v) => v != 0
  | some .nan => false
  | some .inf => true
  | some .ninf => true
  | some (.str s) => s != ""
  | some (.boolv b) => b
  | some .nullv => false
  | some .other => true

/-- `typeof x === 'number'` for a possibly-absent value: finite numbers,
`NaN` and the infinities all have type `number`. -/
def isNumberType : Option JVal → Bool
  | some (.num _) => true
  | some .nan => true
  | some .inf => true
  | some .ninf => true
  | _ => false

/-- `Number.isFinite`-style finiteness of a possibly-absent value. -/
def isFiniteNumber : Option JVal → Bool
  | some (.num _) => true
  | _ => false

/-- Calendar day index of `new Date(x)`: `some` of the day number for a
finite numeric timestamp, `none` for an invalid date (`NaN`, infinities,
non-numeric values). Two timestamps fall on the same calendar day iff
their day indices agree. -/
def jsDateDayO : Option JVal → Option Int
  | some (.num v) => some (v.fdiv 86400000)
  | _ => none

/-- A stroke record or inbound event payload: the properties the server
reads or writes are explicit; every other client-supplied property rides
along opaquely in `extra`. -/
structure JRecord where
  x0 : Option JVal := none
  y0 : Option JVal := none
  x1 : Option JVal := none
  y1 : Option JVal := none
  color : Option JVal := none
  size : Option JVal := none
  tool : Option JVal := none
  id : Option JVal := none
  timestamp : Option JVal := none
  userId : Option JVal := none
  type : Option JVal := none
  targetLength : Option JVal := none
  extra : List (String × JVal) := []
deriving DecidableEq, Repr

/-- `MAX_STROKES` in `server.js`. -/
def MAX_STROKES : Nat := 2000

/-- The server's mutable state: the in-memory `canvasData` array and the
durable `canvas-data.json` file (parsed; `none` = absent or unreadable). -/
structure ServerState where
  canvasData : List JRecord
  file : Option (List JRecord)
deriving DecidableEq, Repr

/-- A socket.io emission performed by a handler. -/
inductive Emit where
  | strokeAddedExcept (origin : String) (s : JRecord)
  | canvasDataAll (log : List JRecord)
  | canvasDataTo (dest : String) (log : List JRecord)
  | canvasClearedAll
deriving DecidableEq, Repr

/-- A message as seen by one connected session. -/
inductive ClientMsg where
  | strokeAdded (s : JRecord)
  | canvasData (log : List JRecord)
  | canvasCleared
deriving DecidableEq, Repr

/-- What one emission delivers to session `sess`:
`socket.broadcast.emit` reaches everyone but the origin, `io.emit`
reaches everyone, `socket.emit` reaches only its target. -/
def receivesAt (sess : String) : Emit → List ClientMsg
  | .strokeAddedExcept origin s =>
      if sess = origin then [] else [.strokeAdded s]
  | .canvasDataAll log => [.canvasData log]
  | .canvasDataTo dest log =>
      if sess = dest then [.canvasData log] else []
  | .canvasClearedAll => [.canvasCleared]

/-- All messages session `sess` receives from a list of emissions, in
order. -/
def receives (sess : String) (es : List Emit) : List ClientMsg :=
  (es.map (receivesAt sess)).flatten

/-- The guard shared by the `draw` and `erase` handlers:
`!data || typeof data.x0 !== 'number' || ... || typeof data.y1 !== 'number'`
(negated). Note it checks only `typeof`, not finiteness, and never looks
at `color`, `size` or `tool`. -/
def validDrawPayload : Option JRecord → Bool
  | none => false
  | some r =>
      isNumberType r.x0 && isNumberType r.y0 &&
      isNumberType r.x1 && isNumberType r.y1

/-- The validation the specification describes (§4.1): `x0,y0,x1,y1`
finite numbers and `color`, `size`, `tool` present. Stated from the
spec's words, for comparison with `validDrawPayload` from the source. -/
def specValidDraw : Option JRecord → Bool
  | none => false
  | some r =>
      isFiniteNumber r.x0 && isFiniteNumber r.y0 &&
      isFiniteNumber r.x1 && isFiniteNumber r.y1 &&
      truthyO r.color && truthyO r.size && truthyO r.tool

/-- `const strokeData = { ...data, timestamp: Date.now(), id: generateId(),
userId: socket.id, type }`: every property of the payload is kept and the
four server fields are overwritten. `now` models `Date.now()` and `newId`
models `generateId()`. -/
def stampStroke (sess : String) (r : JRecord) (now : Int) (newId : String)
    (kind : String) : JRecord :=
  { r with
    timestamp := some (.num now)
    id := some (.str newId)
    userId := some (.str sess)
    type := some (.str kind) }

/-- `canvasData.push(s)` followed by
`if (canvasData.length > MAX_STROKES) canvasData = canvasData.slice(-MAX_STROKES)`
(`slice(-n)` keeps the last `n` elements). -/
def appendTrim (log : List JRecord) (s : JRecord) : List JRecord :=
  if MAX_STROKES < (log ++ [s]).length then
    (log ++ [s]).drop ((log ++ [s]).length - MAX_STROKES)
  else log ++ [s]

/-- The `socket.on('draw')` handler, lines 122–149 of `server.js`. -/
def handleDraw (st : ServerState) (sess : String) (d : Option JRecord)
    (now : Int) (newId : String) : ServerState × List Emit :=
  if validDrawPayload d then
    match d with
    | some r =>
        let stroke := stampStroke sess r now newId "draw"
        ({ st with canvasData := appendTrim st.canvasData stroke },
         [.strokeAddedExcept sess stroke])
    | none => (st, [])
  else (st, [])

/-- The `socket.on('erase')` handler, lines 169–192 of `server.js`;
identical to `draw` except for the stamped `type`. -/
def handleErase (st : ServerState) (sess : String) (d : Option JRecord)
    (now : Int) (newId : String) : ServerState × List Emit :=
  if validDrawPayload d then
    match d with
    | some r =>
        let stroke := stampStroke sess r now newId "erase"
        ({ st with canvasData := appendTrim st.canvasData stroke },
         [.strokeAddedExcept sess stroke])
    | none => (st, [])
  else (st, [])

/-- The `socket.on('clear')` handler, lines 195–207: empty the array,
`io.emit('canvas-cleared')`, then `await saveCanvasData()` (immediate
persist of the now-empty array). -/
def handleClear (st : ServerState) : ServerState × List Emit :=
  ({ st with canvasData := [], file := some [] }, [.canvasClearedAll])

/-- The `socket.on('undo')` handler, lines 210–224. The outer guard is
`data && data.targetLength && typeof data.targetLength === 'number'`:
the middle conjunct is a truthiness test, so `targetLength: 0` (and
`NaN`) fail it. The inner guard is
`data.targetLength >= 0 && data.targetLength < canvasData.length`;
`Infinity` passes `>= 0` but fails `< length`, `-Infinity` fails `>= 0`,
so only a finite number reaches the truncation. `slice(0, k)` is
`take k`. -/
def handleUndo (st : ServerState) (d : Option JRecord) :
    ServerState × List Emit :=
  match d with
  | none => (st, [])
  | some r =>
      if truthyO r.targetLength && isNumberType r.targetLength then
        match r.targetLength with
        | some (.num v) =>
            if 0 ≤ v ∧ v < (st.canvasData.length : Int) then
              let newLog := st.canvasData.take v.toNat
              ({ st with canvasData := newLog }, [.canvasDataAll newLog])
            else (st, [])
        | _ => (st, [])
      else (st, [])

/-- The `socket.on('request-sync')` handler, lines 227–233. -/
def handleRequestSync (st : ServerState) (sess : String) :
    ServerState × List Emit :=
  (st, [.canvasDataTo sess st.canvasData])

/-- `POST /api/sync-canvas`, lines 316–331: if the body is an array,
push all of its elements verbatim (no validation, no re-stamping), trim
to the last `MAX_STROKES` if over the bound, and full-broadcast. -/
def handleSyncCanvas (st : ServerState) (body : Option (List JRecord)) :
    ServerState × List Emit × Nat :=
  match body with
  | none => (st, [], 400)
  | some strokes =>
      let pushed := st.canvasData ++ strokes
      let trimmed :=
        if MAX_STROKES < pushed.length then
          pushed.drop (pushed.length - MAX_STROKES)
        else pushed
      ({ st with canvasData := trimmed }, [.canvasDataAll trimmed], 200)

/-- `loadCanvasData`, lines 68–85: read and parse the file (on failure
start empty); then, if the array is nonempty and its first entry's
`timestamp` is truthy, compare that timestamp's calendar day with today
and clear the array on mismatch (an invalid date never equals today's
date string). -/
def loadCanvasData (file : Option (List JRecord)) (today : Int) :
    List JRecord :=
  match file with
  | none => []
  | some l =>
      match l.head? with
      | none => l
      | some r =>
          if truthyO r.timestamp then
            match jsDateDayO r.timestamp with
            | some d => if d = today then l else []
            | none => []
          else l

/-- What `JSON.stringify` (followed by `JSON.parse` on the next load)
makes of one stored value: the non-finite numbers `NaN`, `Infinity` and
`-Infinity` — which the `typeof`-only validation admits into the log,
e.g. `JSON.parse("1e999") = Infinity` in a REST body or socket frame —
serialize as `null`; every other value round-trips unchanged. -/
def jsonVal : JVal → JVal
  | .nan => .nullv
  | .inf => .nullv
  | .ninf => .nullv
  | v => v

/-- `jsonVal` on a possibly-absent property (an absent property stays
absent). -/
def jsonValO : Option JVal → Option JVal :=
  Option.map jsonVal

/-- The JSON image of a stored record: every property value passed
through `jsonVal`. -/
def jsonRecord (r : JRecord) : JRecord :=
  { x0 := jsonValO r.x0, y0 := jsonValO r.y0
    x1 := jsonValO r.x1, y1 := jsonValO r.y1
    color := jsonValO r.color, size := jsonValO r.size
    tool := jsonValO r.tool, id := jsonValO r.id
    timestamp := jsonValO r.timestamp, userId := jsonValO r.userId
    type := jsonValO r.type, targetLength := jsonValO r.targetLength
    extra := r.extra.map (fun p => (p.1, jsonVal p.2)) }

/-- `saveCanvasData`, lines 88–95: overwrite the file with
`JSON.stringify(canvasData)`. The persisted image is the `jsonRecord`
image of the array — lossy on non-finite numbers — not the in-memory
array itself. -/
def saveCanvasData (st : ServerState) : ServerState :=
  { st with file := some (st.canvasData.map jsonRecord) }

/-- `recordedOn today r` holds when `r` carries a finite numeric
timestamp falling on calendar day `today`. -/
def recordedOn (today : Int) (r : JRecord) : Bool :=
  match r.timestamp with
  | some (.num v) => v.fdiv 86400000 == today
  | _ => false

/-- One submission in a sequence of draw/erase events: the originating
session, the payload, and the server's `Date.now()` / `generateId()`
values at processing time. -/
inductive SubOp where
  | draw (sess : String) (payload : JRecord) (now : Int) (newId : String)
  | erase (sess : String) (payload : JRecord) (now : Int) (newId : String)
deriving DecidableEq, Repr

/-- The payload of a submission. -/
def SubOp.payload : SubOp → JRecord
  | .draw _ p _ _ => p
  | .erase _ p _ _ => p

/-- The stroke the server stamps for a submission. -/
def SubOp.stamped : SubOp → JRecord
  | .draw sess p now newId => stampStroke sess p now newId "draw"
  | .erase sess p now newId => stampStroke sess p now newId "erase"

/-- Process one submission, keeping only the state. -/
def stepSub (st : ServerState) (op : SubOp) : ServerState :=
  match op with
  | .draw sess p now newId => (handleDraw st sess (some p) now newId).1
  | .erase sess p now newId => (handleErase st sess (some p) now newId).1

/-- Process a sequence of submissions in arrival order. -/
def processSubs (st : ServerState) (ops : List SubOp) : ServerState :=
  ops.foldl stepSub st

/-! ### Helper lemmas on suffix trimming -/

/-- The last `n` elements of a list (what `Array.prototype.slice(-n)`
keeps, and the identity when the list is shorter than `n`). -/
def lastN {α : Type} (n : Nat) (l : List α) : List α :=
  l.drop (l.length - n)

theorem lastN_of_le {α : Type} (n : Nat) (l : List α)
    (h : l.length ≤ n) : lastN n l = l := by
  unfold lastN
  have hz : l.length - n = 0 := by omega
  rw [hz, List.drop_zero]

theorem length_lastN {α : Type} (n : Nat) (l : List α) :
    (lastN n l).length = min n l.length := by
  unfold lastN
  rw [List.length_drop]
  omega

theorem appendTrim_eq_lastN (l : List JRecord) (s : JRecord) :
    appendTrim l s = lastN MAX_STROKES (l ++ [s]) := by
  unfold appendTrim lastN
  split
  · rfl
  · next h =>
      have hz : (l ++ [s]).length - MAX_STROKES = 0 := by omega
      rw [hz, List.drop_zero]

theorem lastN_append_lastN {α : Type} (n : Nat) (l r : List α) :
    lastN n (lastN n l ++ r) = lastN n (l ++ r) := by
  unfold lastN
  rcases le_or_lt l.length n with h | h
  · have hz : l.length - n = 0 := by omega
    rw [hz, List.drop_zero]
  · have hd : l.length - n ≤ l.length := by omega
    rw [← List.drop_append_of_le_length hd, List.drop_drop]
    congr 1
    simp only [List.length_drop, List.length_append]
    omega

theorem length_appendTrim_le (l : List JRecord) (s : JRecord) :
    (appendTrim l s).length ≤ MAX_STROKES := by
  rw [appendTrim_eq_lastN, length_lastN]
  omega

theorem stepSub_valid (st : ServerState) (op : SubOp)
    (h : validDrawPayload (some op.payload) = true) :
    stepSub st op =
      { st with canvasData := appendTrim st.canvasData op.stamped } := by
  cases op with
  | draw sess p now newId =>
      simp only [SubOp.payload] at h
      simp [stepSub, handleDraw, h, SubOp.stamped]
  | erase sess p now newId =>
      simp only [SubOp.payload] at h
      simp [stepSub, handleErase, h, SubOp.stamped]

theorem processSubs_eq_lastN (ops : List SubOp) :
    ∀ st : ServerState,
    (∀ op ∈ ops, validDrawPayload (some op.payload) = true) →
    st.canvasData.length ≤ MAX_STROKES →
    (processSubs st ops).canvasData
      = lastN MAX_STROKES (st.canvasData ++ ops.map SubOp.stamped) := by
  induction ops with
  | nil =>
      intro st _ hle
      simp [processSubs, lastN_of_le _ _ hle]
  | cons op ops ih =>
      intro st h hle
      have hop : validDrawPayload (some op.payload) = true :=
        h op (by simp)
      have hrest : ∀ o ∈ ops, validDrawPayload (some o.payload) = true :=
        fun o ho => h o (by simp [ho])
      have hstep : processSubs st (op :: ops) = processSubs (stepSub st op) ops := by
        simp [processSubs]
      have hlen : (stepSub st op).canvasData.length ≤ MAX_STROKES := by
        rw [stepSub_valid st op hop]
        exact length_appendTrim_le _ _
      rw [hstep, ih (stepSub st op) hrest hlen, stepSub_valid st op hop]
      show lastN _ (appendTrim st.canvasData op.stamped ++ _) = _
      rw [appendTrim_eq_lastN, lastN_append_lastN, List.append_assoc,
        List.singleton_append, List.map_cons]

/-! ### Concrete values used by witnesses and counterexamples -/

/-- The server state at first start: empty log, no file. -/
def emptyState : ServerState := ⟨[], none⟩

/-- A well-formed draw payload (the §8 scenario payload). -/
def samplePayload : JRecord :=
  { x0 := some (.num 0), y0 := some (.num 0),
    x1 := some (.num 10), y1 := some (.num 10),
    color := some (.str "#fff"), size := some (.num 3),
    tool := some (.str "pen") }

/-- A two-submission sequence: one draw, one erase. -/
def sampleOps : List SubOp :=
  [.draw "A" samplePayload 100 "id1", .erase "B" samplePayload 200 "id2"]

/-- A state whose log holds one stroke. -/
def oneState : ServerState := ⟨[samplePayload], none⟩

/-- A state whose log holds two strokes. -/
def twoState : ServerState :=
  ⟨[samplePayload, { samplePayload with x0 := some (.num 7) }], none⟩

/-! ### C3 -/

/-- C3: starting from an empty log, processing `N` valid draw/erase
submissions leaves a log of length `min N MAX_STROKES` whose entries are
exactly the most recent `min N MAX_STROKES` stamped submissions in
submission order; and whenever a push takes the length above
`MAX_STROKES`, exactly `length - MAX_STROKES` oldest entries are dropped
with the survivors' relative order preserved (the log becomes the
corresponding suffix). -/
theorem C3_trim_policy (ops : List SubOp)
    (hval : ∀ op ∈ ops, validDrawPayload (some op.payload) = true) :
    (processSubs emptyState ops).canvasData
        = (ops.map SubOp.stamped).drop (ops.length - MAX_STROKES)
    ∧ (processSubs emptyState ops).canvasData.length
        = min ops.length MAX_STROKES
    ∧ ∀ (l : List JRecord) (s : JRecord),
        MAX_STROKES < (l ++ [s]).length →
        appendTrim l s = (l ++ [s]).drop ((l ++ [s]).length - MAX_STROKES) := by
  have h := processSubs_eq_lastN ops emptyState hval (by simp [emptyState])
  refine ⟨?_, ?_, ?_⟩
  · rw [h]
    simp [emptyState, lastN]
  · rw [h]
    simp [emptyState, length_lastN, Nat.min_comm]
  · intro l s hlen
    unfold appendTrim
    rw [if_pos hlen]

/-- Witness for C3 at a concrete two-submission run. -/
theorem C3_trim_policy_witness :
    (∀ op ∈ sampleOps, validDrawPayload (some op.payload) = true)
    ∧ (processSubs emptyState sampleOps).canvasData
        = (sampleOps.map SubOp.stamped).drop (sampleOps.length - MAX_STROKES) :=
  ⟨by decide, (C3_trim_policy sampleOps (by decide)).1⟩

/-! ### C1 -/

/-- C1 counterexample: with a one-stroke log, `undo` with
`targetLength: 0` satisfies `0 ≤ 0 < length`, yet the handler leaves the
log unchanged and broadcasts nothing (the guard
`data.targetLength &&` is a truthiness test, and `0` is falsy), whereas
the claim demands a log of length `0` and a full `canvas-data`
broadcast. -/
theorem C1_counterexample :
    (0 : Int) ≤ 0 ∧ (0 : Int) < (oneState.canvasData.length : Int)
    ∧ handleUndo oneState (some { targetLength := some (.num 0) })
        = (oneState, []) := by
  refine ⟨le_refl 0, by decide, by decide⟩

/-- C1 amended: an undo whose numeric `targetLength` is `k` truncates
the log to its first `k` entries and full-broadcasts them precisely when
`0 < k < length` (not `0 ≤ k`): `k = 0` fails the handler's truthiness
guard, and any `k` with `k ≤ 0` or `k ≥ length` leaves the log unchanged
with no broadcast. -/
theorem C1_undo_amended (st : ServerState) (k : Int) :
    (0 < k → k < (st.canvasData.length : Int) →
      handleUndo st (some { targetLength := some (.num k) })
        = ({ st with canvasData := st.canvasData.take k.toNat },
           [Emit.canvasDataAll (st.canvasData.take k.toNat)]))
    ∧ (0 < k → k < (st.canvasData.length : Int) →
      ((st.canvasData.take k.toNat).length : Int) = k)
    ∧ ((k ≤ 0 ∨ (st.canvasData.length : Int) ≤ k) →
      handleUndo st (some { targetLength := some (.num k) }) = (st, [])) := by
  refine ⟨?_, ?_, ?_⟩
  · intro h1 h2
    have hne : (k != 0) = true := by simp; omega
    simp [handleUndo, truthyO, isNumberType, hne]
    exact ⟨le_of_lt h1, h2⟩
  · intro h1 h2
    rw [List.length_take]
    omega
  · intro h
    rcases eq_or_ne k 0 with rfl | hne
    · simp [handleUndo, truthyO, isNumberType]
    · have hout : ¬(0 ≤ k ∧ k < (st.canvasData.length : Int)) := by
        rcases h with h | h
        · intro hc; omega
        · intro hc; omega
      have hneb : (k != 0) = true := by simp [hne]
      simp [handleUndo, truthyO, isNumberType, hneb, hout]

/-- Witness for C1 amended: `undo(1)` on a two-stroke log keeps the
first stroke and full-broadcasts it. -/
theorem C1_undo_amended_witness :
    ((0 : Int) < 1 ∧ (1 : Int) < (twoState.canvasData.length : Int))
    ∧ handleUndo twoState (some { targetLength := some (.num 1) })
        = ({ twoState with canvasData := twoState.canvasData.take (1 : Int).toNat },
           [Emit.canvasDataAll (twoState.canvasData.take (1 : Int).toNat)]) :=
  ⟨⟨by decide, by decide⟩,
   (C1_undo_amended twoState 1).1 (by decide) (by decide)⟩

/-! ### C2 -/

/-- A payload whose `y1` is `NaN` (JS type `number`, not finite) and
which carries no `color`, `size` or `tool`. -/
def badPayload : JRecord :=
  { x0 := some (.num 0), y0 := some (.num 0),
    x1 := some (.num 0), y1 := some .nan }

/-- C2 counterexample: the handler's guard only checks
`typeof === 'number'`, so a payload with a non-finite coordinate and no
`color`/`size`/`tool` — rejected by the claim's validation — is
nevertheless appended to the log and broadcast. -/
theorem C2_counterexample :
    specValidDraw (some badPayload) = false
    ∧ (handleDraw emptyState "A" (some badPayload) 5 "id1").1.canvasData.length = 1
    ∧ (handleDraw emptyState "A" (some badPayload) 5 "id1").2 ≠ [] := by
  refine ⟨by decide, by decide, by decide⟩

/-- C2 amended: a draw/erase payload is appended and broadcast iff the
payload is present and `x0,y0,x1,y1` all have JS type `number`
(finiteness is not checked — `NaN`/`±Infinity` pass — and `color`,
`size`, `tool` are never examined); any payload failing that check is
dropped silently, leaving the state (log and persisted file) unchanged
and emitting nothing. -/
theorem C2_validation_amended (st : ServerState) (sess : String)
    (r : JRecord) (now : Int) (newId : String) :
    (validDrawPayload (some r) = true →
      handleDraw st sess (some r) now newId
        = ({ st with canvasData :=
               appendTrim st.canvasData (stampStroke sess r now newId "draw") },
           [Emit.strokeAddedExcept sess (stampStroke sess r now newId "draw")]))
    ∧ (validDrawPayload (some r) = false →
      handleDraw st sess (some r) now newId = (st, []))
    ∧ (validDrawPayload (some r) = true →
      handleErase st sess (some r) now newId
        = ({ st with canvasData :=
               appendTrim st.canvasData (stampStroke sess r now newId "erase") },
           [Emit.strokeAddedExcept sess (stampStroke sess r now newId "erase")]))
    ∧ (validDrawPayload (some r) = false →
      handleErase st sess (some r) now newId = (st, []))
    ∧ handleDraw st sess none now newId = (st, [])
    ∧ handleErase st sess none now newId = (st, []) := by
  refine ⟨?_, ?_, ?_, ?_, ?_, ?_⟩ <;>
    first
      | (intro h; simp [handleDraw, handleErase, h])
      | simp [handleDraw, handleErase, validDrawPayload]

/-- The stamped stroke produced for the §8 scenario payload. -/
def sampleStamped : JRecord := stampStroke "A" samplePayload 100 "id1" "draw"

/-- Witness for C2 amended: the §8 scenario payload is accepted,
appended and broadcast, applied at concrete inputs. -/
theorem C2_validation_amended_witness :
    validDrawPayload (some samplePayload) = true
    ∧ handleDraw emptyState "A" (some samplePayload) 100 "id1"
        = ({ emptyState with canvasData := appendTrim emptyState.canvasData sampleStamped },
           [Emit.strokeAddedExcept "A" sampleStamped]) :=
  ⟨by decide,
   (C2_validation_amended emptyState "A" samplePayload 100 "id1").1 (by decide)⟩

/-! ### C4 -/

/-- A record a client queued offline, carrying its own `id` and
`timestamp`. -/
def clientStroke : JRecord :=
  { id := some (.str "client-id"), timestamp := some (.num 42) }

/-- C5 counterexample: `POST /api/sync-canvas` pushes the request body's
records into the log verbatim, so a record with a client-chosen `id` and
`timestamp` is stored with exactly those values — they are not
server-assigned on this append path. -/
theorem C5_counterexample :
    (handleSyncCanvas emptyState (some [clientStroke])).1.canvasData
        = [clientStroke]
    ∧ clientStroke.id = some (.str "client-id")
    ∧ clientStroke.timestamp = some (.num 42) :=
  ⟨by decide, rfl, rfl⟩

/-- C5 amended: on the `draw`/`erase` socket paths the stored and
broadcast stroke's `id` and `timestamp` are the server's values,
whatever the client sent; the `POST /api/sync-canvas` path, by contrast,
appends the client records verbatim (then trims to the last
`MAX_STROKES`), so client-supplied `id`/`timestamp` values enter the log
unchanged. -/
theorem C5_stamping_amended (st : ServerState) (sess : String)
    (r : JRecord) (now : Int) (newId : String) (body : List JRecord) :
    ((stampStroke sess r now newId "draw").id = some (.str newId)
      ∧ (stampStroke sess r now newId "draw").timestamp = some (.num now)
      ∧ (stampStroke sess r now newId "erase").id = some (.str newId)
      ∧ (stampStroke sess r now newId "erase").timestamp = some (.num now))
    ∧ (validDrawPayload (some r) = true →
        (handleDraw st sess (some r) now newId).2
          = [Emit.strokeAddedExcept sess (stampStroke sess r now newId "draw")])
    ∧ (handleSyncCanvas st (some body)).1.canvasData
        = lastN MAX_STROKES (st.canvasData ++ body) := by
  refine ⟨⟨rfl, rfl, rfl, rfl⟩, ?_, ?_⟩
  · intro h
    simp [handleDraw, h]
  · show (if MAX_STROKES < (st.canvasData ++ body).length then
        (st.canvasData ++ body).drop ((st.canvasData ++ body).length - MAX_STROKES)
      else st.canvasData ++ body) = lastN MAX_STROKES (st.canvasData ++ body)
    unfold lastN
    split
    · rfl
    · next hle =>
        have hz : (st.canvasData ++ body).length - MAX_STROKES = 0 := by omega
        rw [hz, List.drop_zero]

/-- Witness for C5 amended at the §8 scenario payload. -/
theorem C5_stamping_amended_witness :
    validDrawPayload (some samplePayload) = true
    ∧ (handleDraw emptyState "A" (some samplePayload) 100 "id1").2
        = [Emit.strokeAddedExcept "A" (stampStroke "A" samplePayload 100 "id1" "draw")] :=
  ⟨by decide,
   (C5_stamping_amended emptyState "A" samplePayload 100 "id1" []).2.1 (by decide)⟩

/-! ### C6 -/

/-- C6: `clear` empties the log, sends `canvas-cleared` to every session
(the originator included — an `io.emit`), writes the empty log to the
file at once, and a storage reload right after returns the empty log. -/
theorem C6_clear_behavior (st : ServerState) (today : Int) (sess : String) :
    (handleClear st).1.canvasData = []
    ∧ receives sess (handleClear st).2 = [ClientMsg.canvasCleared]
    ∧ (handleClear st).1.file = some []
    ∧ loadCanvasData (handleClear st).1.file today = [] :=
  ⟨rfl, rfl, rfl, rfl⟩

/-! ### C7 -/

/-- A persisted stroke stamped at the epoch: its `timestamp` is the
number `0`, which is falsy in JavaScript. -/
def staleStroke : JRecord := { timestamp := some (.num 0) }

/-- C7 counterexample: a snapshot whose oldest entry was recorded at
timestamp `0` (calendar day 0, not the current day 20000) is loaded
anyway: the guard `canvasData[0].timestamp` is a truthiness test, and
`0` is falsy, so the daily-boundary discard is skipped. -/
theorem C7_counterexample :
    jsDateDayO staleStroke.timestamp = some 0
    ∧ (0 : Int) ≠ 20000
    ∧ loadCanvasData (some [staleStroke]) 20000 = [staleStroke]
    ∧ [staleStroke] ≠ ([] : List JRecord) :=
  ⟨rfl, by decide, rfl, by decide⟩

/-- C7 amended: startup load returns the empty log when the file is
absent or unreadable, and for a nonempty snapshot applies the
daily-boundary rule only when the first entry's `timestamp` is truthy:
then the snapshot is kept iff that timestamp's calendar day is today
(an invalid date always discards); when the first entry's `timestamp`
is falsy (absent, `0`, `NaN`, ...) the snapshot is loaded regardless of
its age. -/
theorem C7_load_amended (today : Int) (r : JRecord) (rest : List JRecord) :
    loadCanvasData none today = []
    ∧ loadCanvasData (some []) today = []
    ∧ (truthyO r.timestamp = false →
        loadCanvasData (some (r :: rest)) today = r :: rest)
    ∧ (∀ d : Int, truthyO r.timestamp = true → jsDateDayO r.timestamp = some d →
        loadCanvasData (some (r :: rest)) today
          = if d = today then r :: rest else [])
    ∧ (truthyO r.timestamp = true → jsDateDayO r.timestamp = none →
        loadCanvasData (some (r :: rest)) today = []) := by
  refine ⟨rfl, rfl, ?_, ?_, ?_⟩
  · intro h
    simp [loadCanvasData, h]
  · intro d h hd
    simp [loadCanvasData, h, hd]
  · intro h hd
    simp [loadCanvasData, h, hd]

/-- A persisted stroke recorded on calendar day 5. -/
def freshStroke : JRecord := { timestamp := some (.num 432000007) }

/-- Witness for C7 amended: a day-5 snapshot loaded on day 5 is kept. -/
theorem C7_load_amended_witness :
    truthyO freshStroke.timestamp = true
    ∧ jsDateDayO freshStroke.timestamp = some 5
    ∧ loadCanvasData (some [freshStroke]) 5
        = if (5 : Int) = 5 then [freshStroke] else [] :=
  ⟨rfl, by decide,
   (C7_load_amended 5 freshStroke []).2.2.2.1 5 (by decide) (by decide)⟩

/-! ### C8 -/

theorem recordedOn_eq (today : Int) (r : JRecord)
    (h : recordedOn today r = true) :
    ∃ v : Int, r.timestamp = some (.num v) ∧ v.fdiv 86400000 = today := by
  unfold recordedOn at h
  split at h
  · next v heq => exact ⟨v, heq, by simpa using h⟩
  · simp at h

theorem map_jsonRecord_id (l : List JRecord)
    (h : ∀ r ∈ l, jsonRecord r = r) : l.map jsonRecord = l := by
  induction l with
  | nil => rfl
  | cons a t ih =>
      rw [List.map_cons, h a (List.mem_cons_self a t),
        ih (fun x hx => h x (by simp [hx]))]

/-- A stroke stamped on calendar day 5 whose `x1` is `Infinity` — the
`typeof`-only validation admits it (e.g. `1e999` in a JSON body). -/
def infStroke : JRecord :=
  { timestamp := some (.num 432000007), x1 := some .inf }

/-- A state whose single (today-stamped) stroke carries `Infinity`. -/
def infState : ServerState := ⟨[infStroke], none⟩

/-- C8 counterexample: a log whose single entry is stamped on the
current calendar day (day 5) but carries `x1 = Infinity` satisfies the
claim's hypothesis, yet `save` then `load` does not return the same
records: `JSON.stringify` writes `null` for the non-finite coordinate,
so the reloaded record differs from the stored one. -/
theorem C8_counterexample :
    (∀ r ∈ infState.canvasData, recordedOn 5 r = true)
    ∧ loadCanvasData (saveCanvasData infState).file 5
        ≠ infState.canvasData :=
  ⟨by decide, by decide⟩

/-- C8 amended: for a log whose entries all carry a finite numeric
timestamp on the current calendar day, `save` followed by `load` with no
intervening mutation returns the JSON image of the log — each record
with its non-finite numeric values replaced by `null`, in the same
order; the content is byte-equivalent to the original exactly when the
stored values are all JSON-stable (no `NaN`/`±Infinity`), which holds in
particular for every log of finite-valued strokes. -/
theorem C8_save_load_amended (st : ServerState) (today : Int)
    (h : ∀ r ∈ st.canvasData, recordedOn today r = true) :
    loadCanvasData (saveCanvasData st).file today
        = st.canvasData.map jsonRecord
    ∧ ((∀ r ∈ st.canvasData, jsonRecord r = r) →
        loadCanvasData (saveCanvasData st).file today = st.canvasData) := by
  have main : loadCanvasData (saveCanvasData st).file today
      = st.canvasData.map jsonRecord := by
    show loadCanvasData (some (st.canvasData.map jsonRecord)) today
        = st.canvasData.map jsonRecord
    rcases hcd : st.canvasData with _ | ⟨r, rest⟩
    · rfl
    · have hr : recordedOn today r = true := by
        refine h r ?_
        rw [hcd]
        exact List.mem_cons_self r rest
      obtain ⟨v, hts, hday⟩ := recordedOn_eq today r hr
      have hts2 : (jsonRecord r).timestamp = some (.num v) := by
        show jsonValO r.timestamp = some (.num v)
        rw [hts]
        rfl
      by_cases hv : v = 0
      · simp [loadCanvasData, truthyO, hts2, hv]
      · simp [loadCanvasData, truthyO, hts2, hv, jsDateDayO, hday]
  refine ⟨main, fun hs => ?_⟩
  rw [main, map_jsonRecord_id st.canvasData hs]

/-- A state whose single stroke was recorded on calendar day 5 with
only finite values. -/
def freshState : ServerState := ⟨[freshStroke], none⟩

/-- Witness for C8 amended on a one-stroke, finite-valued day-5 log
reloaded on day 5: the round-trip is the identity. -/
theorem C8_save_load_amended_witness :
    (∀ r ∈ freshState.canvasData, recordedOn 5 r = true)
    ∧ (∀ r ∈ freshState.canvasData, jsonRecord r = r)
    ∧ loadCanvasData (saveCanvasData freshState).file 5
        = freshState.canvasData :=
  ⟨by decide, by decide,
   (C8_save_load_amended freshState 5 (by decide)).2 (by decide)⟩

/-! ### C9 -/

/-- C9: a valid draw from session `A` while `B` is connected delivers to
`B` exactly one `stroke-added` message holding the submitted geometry
plus the server-assigned `id` and `timestamp`, and delivers nothing back
to `A`. -/
theorem C9_delta_broadcast (st : ServerState) (A B : String) (r : JRecord)
    (now : Int) (newId : String)
    (hval : validDrawPayload (some r) = true) (hBA : B ≠ A) :
    receives B (handleDraw st A (some r) now newId).2
        = [ClientMsg.strokeAdded (stampStroke A r now newId "draw")]
    ∧ receives A (handleDraw st A (some r) now newId).2 = []
    ∧ (stampStroke A r now newId "draw").x0 = r.x0
    ∧ (stampStroke A r now newId "draw").y0 = r.y0
    ∧ (stampStroke A r now newId "draw").x1 = r.x1
    ∧ (stampStroke A r now newId "draw").y1 = r.y1
    ∧ (stampStroke A r now newId "draw").color = r.color
    ∧ (stampStroke A r now newId "draw").size = r.size
    ∧ (stampStroke A r now newId "draw").tool = r.tool
    ∧ (stampStroke A r now newId "draw").id = some (.str newId)
    ∧ (stampStroke A r now newId "draw").timestamp = some (.num now) := by
  refine ⟨?_, ?_, rfl, rfl, rfl, rfl, rfl, rfl, rfl, rfl, rfl⟩
  · simp [handleDraw, hval, receives, receivesAt, hBA]
  · simp [handleDraw, hval, receives, receivesAt]

/-- Witness for C9: the §8 scenario, session "A" drawing with "B"
connected. -/
theorem C9_delta_broadcast_witness :
    (validDrawPayload (some samplePayload) = true ∧ "B" ≠ "A")
    ∧ receives "B" (handleDraw emptyState "A" (some samplePayload) 100 "id1").2
        = [ClientMsg.strokeAdded (stampStroke "A" samplePayload 100 "id1" "draw")] :=
  ⟨⟨by decide, by decide⟩,
   (C9_delta_broadcast emptyState "A" "B" samplePayload 100 "id1"
     (by decide) (by decide)).1⟩

/-! ### C10 -/

/-- A valid payload whose `x1` is `Infinity` (JS type `number`). -/
def infPayload : JRecord :=
  { x0 := some (.num 0), y0 := some (.num 0),
    x1 := some .inf, y1 := some (.num 0) }

/-- C10 counterexample: the guard accepts a payload with an `Infinity`
coordinate; the in-memory stored stroke keeps it verbatim, but the
persisted JSON image holds `null` in its place, so the persisted copy
does not preserve every client-supplied field verbatim (and the
JSON-encoded wire copy is that same image). -/
theorem C10_counterexample :
    validDrawPayload (some infPayload) = true
    ∧ (stampStroke "A" infPayload 5 "id1" "draw").x1 = some .inf
    ∧ (saveCanvasData (handleDraw emptyState "A" (some infPayload) 5 "id1").1).file
        = some [jsonRecord (stampStroke "A" infPayload 5 "id1" "draw")]
    ∧ (jsonRecord (stampStroke "A" infPayload 5 "id1" "draw")).x1 = some .nullv
    ∧ some JVal.nullv ≠ some JVal.inf := by
  refine ⟨by decide, rfl, by decide, rfl, by decide⟩

/-- C10 amended: for an accepted draw or erase payload, the in-memory
record that is stored and handed to the broadcaster keeps every
client-supplied property verbatim — including `extra` properties outside
the documented shape and even a client-sent `targetLength` — except
`timestamp`, `id`, `userId` and `type`, which the server overwrites;
the JSON image that is persisted (and carried on the wire) additionally
replaces non-finite numeric values by `null`, and so coincides with the
stored record exactly when the payload's values are JSON-stable — in
particular for every payload free of `NaN`/`±Infinity`. -/
theorem C10_field_frame (st : ServerState) (sess : String) (r : JRecord)
    (now : Int) (newId : String)
    (hval : validDrawPayload (some r) = true) :
    (handleDraw st sess (some r) now newId).1.canvasData
        = appendTrim st.canvasData (stampStroke sess r now newId "draw")
    ∧ (handleDraw st sess (some r) now newId).2
        = [Emit.strokeAddedExcept sess (stampStroke sess r now newId "draw")]
    ∧ (handleErase st sess (some r) now newId).1.canvasData
        = appendTrim st.canvasData (stampStroke sess r now newId "erase")
    ∧ (handleErase st sess (some r) now newId).2
        = [Emit.strokeAddedExcept sess (stampStroke sess r now newId "erase")]
    ∧ (∀ kind : String,
        (stampStroke sess r now newId kind).x0 = r.x0
        ∧ (stampStroke sess r now newId kind).y0 = r.y0
        ∧ (stampStroke sess r now newId kind).x1 = r.x1
        ∧ (stampStroke sess r now newId kind).y1 = r.y1
        ∧ (stampStroke sess r now newId kind).color = r.color
        ∧ (stampStroke sess r now newId kind).size = r.size
        ∧ (stampStroke sess r now newId kind).tool = r.tool
        ∧ (stampStroke sess r now newId kind).targetLength = r.targetLength
        ∧ (stampStroke sess r now newId kind).extra = r.extra
        ∧ (stampStroke sess r now newId kind).timestamp = some (.num now)
        ∧ (stampStroke sess r now newId kind).id = some (.str newId)
        ∧ (stampStroke sess r now newId kind).userId = some (.str sess)
        ∧ (stampStroke sess r now newId kind).type = some (.str kind))
    ∧ (saveCanvasData (handleDraw st sess (some r) now newId).1).file
        = some (((handleDraw st sess (some r) now newId).1.canvasData).map jsonRecord)
    ∧ (∀ kind : String,
        jsonRecord (stampStroke sess r now newId kind)
          = stampStroke sess (jsonRecord r) now newId kind)
    ∧ (∀ kind : String, jsonRecord r = r →
        jsonRecord (stampStroke sess r now newId kind)
          = stampStroke sess r now newId kind) := by
  refine ⟨?_, ?_, ?_, ?_, ?_, rfl, fun kind => rfl, fun kind hs => ?_⟩
  · simp [handleDraw, hval]
  · simp [handleDraw, hval]
  · simp [handleErase, hval]
  · simp [handleErase, hval]
  · intro kind
    exact ⟨rfl, rfl, rfl, rfl, rfl, rfl, rfl, rfl, rfl, rfl, rfl, rfl, rfl⟩
  · calc jsonRecord (stampStroke sess r now newId kind)
        = stampStroke sess (jsonRecord r) now newId kind := rfl
      _ = stampStroke sess r now newId kind := by rw [hs]

/-- A valid payload smuggling an undocumented property and a spoofed
`id`. -/
def extraPayload : JRecord :=
  { samplePayload with
    extra := [("foo", .str "bar")], id := some (.str "spoofed") }

/-- Witness for C10: the smuggled `extra` property reaches the log and
the broadcast unchanged, while the spoofed `id` is overwritten. -/
theorem C10_field_frame_witness :
    validDrawPayload (some extraPayload) = true
    ∧ (handleDraw emptyState "A" (some extraPayload) 100 "id1").1.canvasData
        = appendTrim emptyState.canvasData (stampStroke "A" extraPayload 100 "id1" "draw") :=
  ⟨by decide,
   (C10_field_frame emptyState "A" extraPayload 100 "id1" (by decide)).1⟩
